import Mathlib

set_option maxRecDepth 20000

/-!
# ULogger — verification of the specification against the source

A shallow embedding, in Lean 4, of the parts of the ULogger backend that the
frozen claims talk about:

* the mbox-counter binary protocol (`crc8_e5`, `build_read_request`,
  `parse_response_frame`) and its framer (`MboxCounterFramer.feed`);
* the easy-serial framer (`EasySerialFramer.feed`);
* the mbox CSV label parser (`parse_label_frame`);
* the mbox domain transformer (`MboxTransformer.transform`);
* the mbox worker's counter-reconciliation ticks (`_tick_counter_logic`,
  `_tick_miss_insert`, `_insert_miss_pack`) and worker lifecycle (`stop`);
* the SQL query-template compiler (`compile_query_template`, `build_query`);
* the Modbus TCP register decoder (`_decode_registers`).

Bytes are modelled as natural numbers (`< 256` where the Python `bytes` type
guarantees it), Python `int` as `ℤ` or `ℕ`, and Python `float` as exact
rationals `ℚ` (IEEE rounding, infinities and NaN are not modelled; no claim
below depends on them).  Fallible Python code returns `Except`/`Option`.
-/

namespace ULogger

/-! ## mbox_counter/protocol.py -/

/-- `PREAMBLE = 0x27`. -/
def PREAMBLE : ℕ := 0x27

/-- `C_READ_REQ = 0x43`. -/
def C_READ_REQ : ℕ := 0x43

/-- `C_READ_RESP = 0x08`. -/
def C_READ_RESP : ℕ := 0x08

/-- `DATA_ADDR = b"\x01\x00"`. -/
def DATA_ADDR : List ℕ := [0x01, 0x00]

/-- One inner iteration of `crc8_e5`:
`if crc & 0x80: crc ^= 0xE5`, then `crc = (crc << 1) & 0xFF`. -/
def crc8_round (crc : ℕ) : ℕ :=
  let c := if crc &&& 0x80 ≠ 0 then crc ^^^ 0xE5 else crc
  (c <<< 1) &&& 0xFF

/-- `crc8_e5(data)`: initial `crc = 0`; for each byte `crc ^= byte` followed by
eight `crc8_round`s; the result is `(~crc) & 0xFF`, written here as
`(crc & 0xFF) ^^^ 0xFF` (the two agree on every machine byte). -/
def crc8_e5 (data : List ℕ) : ℕ :=
  let crc := data.foldl (fun crc b => crc8_round^[8] (crc ^^^ b)) 0
  (crc &&& 0xFF) ^^^ 0xFF

/-- Little-endian bytes to an unsigned integer (`int.from_bytes(_, "little")`). -/
def leBytesToNat (bs : List ℕ) : ℕ :=
  bs.foldr (fun b acc => b + 256 * acc) 0

/-- `build_read_request(serial_u16)`: rejects values outside `0..0xFFFF`
(`ValueError`), otherwise emits
`0x27 L C A_lo A_hi hdr_crc 0x01 0x00 data_crc` with `L = 5`, `C = 0x43`. -/
def build_read_request (serial_u16 : ℕ) : Except String (List ℕ) :=
  if serial_u16 ≤ 0xFFFF then
    let a := [serial_u16 % 256, serial_u16 / 256]
    let header := [5, C_READ_REQ] ++ a
    .ok ([PREAMBLE] ++ header ++ [crc8_e5 header] ++ DATA_ADDR ++ [crc8_e5 DATA_ADDR])
  else
    .error "serial must be uint16 (0..65535)"

/-- `ParsedCountersResponse`. -/
structure ParsedCountersResponse where
  serial : ℕ
  total_count : ℕ
  size_dir : ℕ
  flags : ℕ
  deriving DecidableEq, Repr

/-- `parse_response_frame(frame)`: validates preamble, length, control code,
header CRC over `frame[1:5]`, data CRC over `frame[6:L+3]`, and `|DATA| == 7`,
then decodes the little-endian fields.  List indexing uses `getD`; every index
used is in range once the corresponding Python length check has passed
(`frame.length = 4 + L ≥ 6`). -/
def parse_response_frame (frame : List ℕ) : Except String ParsedCountersResponse :=
  if frame = [] ∨ frame.getD 0 0 ≠ PREAMBLE then .error "bad preamble"
  else if frame.length < 6 then .error "frame too short"
  else
    let L := frame.getD 1 0
    if frame.length ≠ 4 + L then .error "bad frame length"
    else if frame.getD 2 0 ≠ C_READ_RESP then .error "unexpected control code"
    else
      let serial_u16 := leBytesToNat ((frame.drop 3).take 2)
      let hdr_crc := frame.getD 5 0
      let header := (frame.drop 1).take 4
      if crc8_e5 header ≠ hdr_crc then .error "header crc mismatch"
      else
        -- Python: `data = frame[6 : 6 + (L - 3)]`, `data_crc = frame[6 + (L - 3)]`;
        -- since L ≥ 2 here, `6 + (L - 3) = L + 3` as an integer, and the slice is
        -- empty whenever `L + 3 < 6` — truncated subtraction reproduces this.
        let data := (frame.drop 6).take (L + 3 - 6)
        let data_crc := frame.getD (L + 3) 0
        if crc8_e5 data ≠ data_crc then .error "data crc mismatch"
        else if data.length ≠ 7 then .error "unexpected data length"
        else .ok { serial := serial_u16
                   total_count := leBytesToNat (data.take 4)
                   size_dir := leBytesToNat ((data.drop 4).take 2)
                   flags := data.getD 6 0 }

/-! ## mbox_counter/framer.py -/

/-- Index of the first occurrence of byte `x` (Python `bytearray.index`,
with `none` standing for the raised `ValueError`). -/
def indexOfByte (x : ℕ) : List ℕ → Option ℕ
  | [] => none
  | b :: t => if b = x then some 0 else (indexOfByte x t).map (· + 1)

/-- The `while True` body of `MboxCounterFramer.feed`, fuelled.  Returns the
emitted frames and the final buffer.  One unit of fuel is spent per loop
iteration that continues; `feed` below supplies more fuel than the loop can
ever consume, since every continuing iteration removes at least one byte. -/
def mcFeedGo : ℕ → List ℕ → List (List ℕ) × List ℕ
  | 0, buf => ([], buf)
  | fuel + 1, buf =>
    match indexOfByte PREAMBLE buf with
    | none => ([], [])                      -- no preamble: clear buffer
    | some stx =>
      let b := buf.drop stx                 -- drop leading garbage
      if b.length < 2 then ([], b)          -- need PREAMBLE + LEN
      else
        let L := b.getD 1 0
        let frame_len := 4 + L
        if frame_len ≤ 0 then               -- defensive guard (unreachable: 4 + L > 0)
          mcFeedGo fuel (b.drop 1)
        else if b.length < frame_len then ([], b)
        else
          let frame := b.take frame_len
          let rest := mcFeedGo fuel (b.drop frame_len)
          (frame :: rest.1, rest.2)

/-- `MboxCounterFramer.feed(data)` on a framer whose buffer holds `buf`:
returns the emitted frames and the new buffer. -/
def mcFeed (buf data : List ℕ) : List (List ℕ) × List ℕ :=
  if data = [] then ([], buf)
  else
    let b := buf ++ data
    mcFeedGo (b.length + 1) b

/-! ## easy_serial/framer.py -/

/-- Leftmost index of the byte string `needle` inside `hay`
(Python `bytearray.find`, with `none` for `-1`). -/
def subFind (needle : List ℕ) : List ℕ → Option ℕ
  | [] => if needle = [] then some 0 else none
  | b :: t => if needle.isPrefixOf (b :: t) then some 0 else (subFind needle t).map (· + 1)

/-- Python `hay.find(needle, start)` (for `start ≤ len hay`, the only way the
source calls it). -/
def subFindFrom (needle hay : List ℕ) (start : ℕ) : Option ℕ :=
  (subFind needle (hay.drop start)).map (· + start)

/-- The `while True` loop of `EasySerialFramer.feed`, fuelled.  `pre` is
`_preamble_bytes` (`none` when no preamble is configured), `term` is
`_terminator_bytes`.  Each continuing iteration removes at least one byte
from the buffer, so the fuel supplied by `esFeed` is never exhausted. -/
def esFeedGo (pre : Option (List ℕ)) (term : List ℕ) :
    ℕ → List ℕ → List (List ℕ) × List ℕ
  | 0, buf => ([], buf)
  | fuel + 1, buf =>
    -- preamble sync: `.error b` models the early `return` with buffer `b`
    let step : Except (List ℕ) (List ℕ × ℕ) :=
      match pre with
      | none => .ok (buf, 0)
      | some p =>
        match subFind p buf with
        | none =>
          -- preamble not found: keep at most `len(p) - 1` trailing bytes
          let maxKeep := p.length - 1
          .error (if 0 < maxKeep ∧ maxKeep < buf.length
                  then buf.drop (buf.length - maxKeep) else buf)
        | some idx => .ok (buf.drop idx, p.length)
    match step with
    | .error b => ([], b)
    | .ok (b, start) =>
      match subFindFrom term b start with
      | none => ([], b)                      -- terminator not found yet
      | some tIdx =>
        let payload := (b.take tIdx).drop start
        let rest := esFeedGo pre term fuel (b.drop (tIdx + term.length))
        (payload :: rest.1, rest.2)

/-- `EasySerialFramer.feed(data)` on a framer whose buffer holds `buf`:
returns the emitted payload frames and the new buffer. -/
def esFeed (pre : Option (List ℕ)) (term : List ℕ) (buf data : List ℕ) :
    List (List ℕ) × List ℕ :=
  if data = [] then ([], buf)
  else
    let b := buf ++ data
    esFeedGo pre term (b.length + 1) b

/-! ## loggers/base.py and the workers' `stop()` -/

/-- `WorkerState` (`base.py`). -/
inductive WorkerState where
  | created
  | running
  | stopping
  | stopped
  | error
  deriving DecidableEq, Repr

/-- The per-worker runtime state touched by `stop()`: the `_state` field
(guarded by `_state_lock`) and the `_stop_event` flag. -/
structure WorkerRuntime where
  state : WorkerState
  stopEvent : Bool
  deriving DecidableEq, Repr

/-- `stop()` as implemented identically by every worker variant
(`mbox/worker.py` lines 159–164, `modbus_tcp/worker.py` lines 159–161, and
the easy-serial / mbox-counter / modbus-rtu workers):
`self._set_state(WorkerState.STOPPING); self._stop_event.set()` —
unconditionally, with no check of the current state. -/
def workerStop (w : WorkerRuntime) : WorkerRuntime :=
  { w with state := WorkerState.stopping, stopEvent := true }

/-! ## core/query_template.py -/

/-- Python `str.isspace` / the whitespace stripped by `str.strip`, restricted
to the ASCII range (all payloads in scope are ASCII-decoded):
`\t \n \v \f \r`, the separators `\x1c`–`\x1f`, and the space. -/
def pyIsSpace (c : Char) : Bool :=
  c.toNat = 32 || (9 ≤ c.toNat && c.toNat ≤ 13) || (28 ≤ c.toNat && c.toNat ≤ 31)

/-- Python `str.strip()` on a char list. -/
def pyStripList (cs : List Char) : List Char :=
  ((cs.dropWhile pyIsSpace).reverse.dropWhile pyIsSpace).reverse

/-- Python `str.strip()`. -/
def pyStrip (s : String) : String :=
  String.mk (pyStripList s.toList)

/-- Python `str.isidentifier()`, restricted to ASCII identifiers
(first char a letter or underscore, rest letters, digits or underscores). -/
def pyIsIdentifier (s : String) : Bool :=
  match s.toList with
  | [] => false
  | c :: rest => (c.isAlpha || c = '_') && rest.all (fun d => d.isAlphanum || d = '_')

/-- The character scan of `compile_query_template`, returning the rewritten
SQL characters and the placeholder names in order of appearance (with
repetitions; the Python `set` is taken afterwards).  The scan is fuelled so
that it is structurally recursive (and hence computes by kernel reduction);
every continuing step consumes at least one character while spending one
unit of fuel, so the fuel supplied by `compile_query_template` (`length + 1`)
is never exhausted. -/
def compileGo : ℕ → List Char → Except String (List Char × List String)
  | _, [] => .ok ([], [])
  | 0, _ :: _ => .error "unreachable: fuel exhausted"
  | fuel + 1, c :: rest =>
    if c = '{' then
      match rest with
      | '{' :: rest2 =>
        match compileGo fuel rest2 with
        | .error e => .error e
        | .ok (sql, names) => .ok ('{' :: sql, names)
      | _ =>
        let inner := rest.takeWhile (· ≠ '}')
        match rest.dropWhile (· ≠ '}') with
        | [] => .error "Unmatched opening brace in query template"
        | _ :: rest2 =>
          let name := pyStripList inner
          if name = [] then .error "Empty placeholder in query template"
          else if ¬ pyIsIdentifier (String.mk name) then
            .error "Invalid placeholder name in query template"
          else
            match compileGo fuel rest2 with
            | .error e => .error e
            | .ok (sql, names) => .ok (':' :: (name ++ sql), String.mk name :: names)
    else if c = '}' then
      match rest with
      | '}' :: rest2 =>
        match compileGo fuel rest2 with
        | .error e => .error e
        | .ok (sql, names) => .ok ('}' :: sql, names)
      | _ => .error "Single closing brace in query template"
    else
      match compileGo fuel rest with
      | .error e => .error e
      | .ok (sql, names) => .ok (c :: sql, names)

/-- `CompiledQueryTemplate`: the rewritten SQL and the set of parameter
names, represented as the duplicate-free list of names in order of first
appearance (only membership is ever observed, matching the Python `set`). -/
structure CompiledQueryTemplate where
  sql : String
  param_names : List String
  deriving DecidableEq, Repr

/-- `compile_query_template(template)`;  `.error` models `QueryTemplateError`. -/
def compile_query_template (template : String) : Except String CompiledQueryTemplate :=
  match compileGo (template.toList.length + 1) template.toList with
  | .error e => .error e
  | .ok (sql, names) => .ok ⟨String.mk sql, names.dedup⟩

/-- `build_query(template, variables)`.  `variables` is the dict's lookup
function; the returned `params` dict is likewise modelled by its lookup.
`.error` models both `QueryTemplateError` (propagated from compilation) and
the `KeyError` listing the missing names sorted. -/
def build_query {V : Type} (template : String) (vars : String → Option V) :
    Except String (String × (String → Option V)) :=
  match compile_query_template template with
  | .error e => .error e
  | .ok compiled =>
    let missing := compiled.param_names.filter (fun n => (vars n).isNone)
    if missing = [] then
      .ok (compiled.sql, fun n => if n ∈ compiled.param_names then vars n else none)
    else
      .error ("Missing variables for query template: " ++
        String.intercalate ", " (missing.mergeSort (fun a b => decide (a ≤ b))))

/-! ## modbus_tcp/worker.py — `_decode_registers` -/

/-- `ModbusTcpValueEncoding` (`modbus_tcp/config.py`). -/
inductive ModbusTcpValueEncoding where
  | u16 | s16 | u16_scaled | s16_scaled
  | u32_abcd | u32_cdab | s32_abcd | s32_cdab
  | u32_scaled_abcd | u32_scaled_cdab | s32_scaled_abcd | s32_scaled_cdab
  | f32_abcd | f32_cdab | f32_scaled_abcd | f32_scaled_cdab
  deriving DecidableEq, Repr

/-- The string value of each `ModbusTcpValueEncoding` member. -/
def ModbusTcpValueEncoding.value : ModbusTcpValueEncoding → String
  | u16 => "u16"
  | s16 => "s16"
  | u16_scaled => "u16_scaled"
  | s16_scaled => "s16_scaled"
  | u32_abcd => "u32_abcd"
  | u32_cdab => "u32_cdab"
  | s32_abcd => "s32_abcd"
  | s32_cdab => "s32_cdab"
  | u32_scaled_abcd => "u32_scaled_abcd"
  | u32_scaled_cdab => "u32_scaled_cdab"
  | s32_scaled_abcd => "s32_scaled_abcd"
  | s32_scaled_cdab => "s32_scaled_cdab"
  | f32_abcd => "f32_abcd"
  | f32_cdab => "f32_cdab"
  | f32_scaled_abcd => "f32_scaled_abcd"
  | f32_scaled_cdab => "f32_scaled_cdab"

/-- Python `needle in hay` substring test. -/
def containsSub (needle hay : List Char) : Bool :=
  hay.tails.any (fun t => needle.isPrefixOf t)

/-- `"scaled" in enc.value`. -/
def isScaledEnc (enc : ModbusTcpValueEncoding) : Bool :=
  containsSub "scaled".toList enc.value.toList

/-- The part of `ModbusTcpVariableConfig` read by `_decode_registers`:
the encoding and the linear scaling `y = k·x + b`. -/
structure ModbusTcpVariableConfig where
  encoding : ModbusTcpValueEncoding
  k : ℚ
  b : ℚ

/-- `_decode_registers(registers, var)`.  Python numbers (`int`/`float`) are
embedded into `ℚ`; `f32FromBits` abstracts `unpack(">f", pack(">I", u32))[0]`
(the decode result for the `f32` encodings is a function of the 32-bit
pattern alone, which is all the claims need). -/
def decode_registers (f32FromBits : ℕ → ℚ) (registers : List ℕ)
    (var : ModbusTcpVariableConfig) : ℚ :=
  let enc := var.encoding
  let apply_scale : ℚ → ℚ := fun x => var.k * x + var.b
  if enc = .u16 ∨ enc = .u16_scaled then
    let raw := registers.getD 0 0 &&& 0xFFFF
    let value : ℚ := raw
    if isScaledEnc enc then apply_scale value else value
  else if enc = .s16 ∨ enc = .s16_scaled then
    let raw := registers.getD 0 0 &&& 0xFFFF
    let rawS : ℤ := if raw &&& 0x8000 ≠ 0 then (raw : ℤ) - 0x10000 else (raw : ℤ)
    let value : ℚ := rawS
    if isScaledEnc enc then apply_scale value else value
  else
    let hi := registers.getD 0 0 &&& 0xFFFF
    let lo := registers.getD 1 0 &&& 0xFFFF
    let make_u32_abcd : ℕ → ℕ → ℕ := fun h l => ((h <<< 16) ||| l) &&& 0xFFFFFFFF
    let u32 :=
      if enc = .u32_abcd ∨ enc = .u32_scaled_abcd ∨ enc = .s32_abcd ∨
         enc = .s32_scaled_abcd ∨ enc = .f32_abcd ∨ enc = .f32_scaled_abcd then
        make_u32_abcd hi lo
      else
        make_u32_abcd lo hi
    if enc = .u32_abcd ∨ enc = .u32_scaled_abcd ∨ enc = .u32_cdab ∨ enc = .u32_scaled_cdab then
      let value : ℚ := u32
      if isScaledEnc enc then apply_scale value else value
    else if enc = .s32_abcd ∨ enc = .s32_scaled_abcd ∨ enc = .s32_cdab ∨ enc = .s32_scaled_cdab then
      let u32_signed : ℤ := if u32 &&& 0x80000000 ≠ 0 then (u32 : ℤ) - 0x100000000 else (u32 : ℤ)
      let value : ℚ := u32_signed
      if isScaledEnc enc then apply_scale value else value
    else
      let value : ℚ := f32FromBits u32
      if isScaledEnc enc then apply_scale value else value

/-! ## mbox/parser.py, mbox/transform.py — shared data types -/

/-- A Python `datetime` as produced by `datetime.strptime` (naive, with
microseconds). -/
structure PyDateTime where
  year : ℕ
  month : ℕ
  day : ℕ
  hour : ℕ
  minute : ℕ
  second : ℕ
  microsecond : ℕ
  deriving DecidableEq, Repr

/-- A Python value as stored in the workers' `variables` dicts. -/
inductive PyVal where
  | int (z : ℤ)
  | rat (q : ℚ)
  | str (s : String)
  | bool (b : Bool)
  | dt (d : PyDateTime)
  deriving DecidableEq, Repr

/-- `MboxLabelRecord` (`mbox/parser.py`); weights are Python floats,
embedded as exact rationals. -/
structure MboxLabelRecord where
  dt : PyDateTime
  sFishType : String
  sSize : String
  nWeight : ℚ
  rWeight : ℚ
  sSNumber : String
  deriving DecidableEq, Repr

/-! ## mbox/config.py — the fields read by the transformer and the
counter-reconciliation logic -/

/-- `MboxConfig` (the fields used by `transform.py` and by
`_tick_counter_logic` / `_tick_miss_insert` / `_insert_miss_pack`). -/
structure MboxConfig where
  mbox_id : ℤ
  tare : ℚ
  lot : String
  treat_zero_as_error : Bool
  treat_duplicate_as_error : Bool
  error_label_zero : String
  error_label_duplicate : String
  counter_clean_timeout : ℚ
  counter_miss_timeout : ℚ
  miss_strategy : String
  miss_default : String → Option PyVal
  miss_insert_limit : ℤ
  miss_error_label : String

/-! ## mbox/transform.py -/

/-- `MboxTransformResult`; `vars` models the Python `variables` field (the
dict's lookup function; `variables` is a reserved token in Lean). -/
structure MboxTransformResult where
  vars : String → Option PyVal
  on_error : Bool
  error_info : String
  adj_r_weight : ℚ

/-- `MboxTransformer.transform(mbox_id, rec)`: the transformer's state is its
`_last_adj_r_weight` field, passed in as `lastAdj` and returned updated.
Arithmetic on Python floats is modelled exactly on `ℚ`. -/
def mboxTransform (cfg : MboxConfig) (lastAdj : Option ℚ) (mbox_id : ℤ)
    (rec : MboxLabelRecord) : MboxTransformResult × Option ℚ :=
  -- 1) apply tare and clamp negative values
  let adj_r : ℚ := rec.rWeight - cfg.tare
  let adj_r := if adj_r < 0 then (0 : ℚ) else adj_r
  -- 2) error detection: zero weight, then duplicate weight
  let zero := cfg.treat_zero_as_error ∧ adj_r = 0
  let adj_r := if zero then rec.nWeight else adj_r
  let on_error := if zero then true else false
  let error_info := if zero then cfg.error_label_zero else ""
  let dup := ¬ on_error = true ∧ cfg.treat_duplicate_as_error ∧ lastAdj = some adj_r
  let on_error := if dup then true else on_error
  let error_info := if dup then cfg.error_label_duplicate else error_info
  -- 3) update state; 4) build variables
  let vars : String → Option PyVal := fun n =>
    if n = "mbox_id" then some (.int mbox_id)
    else if n = "on_error" then some (.bool on_error)
    else if n = "created_at" then some (.dt rec.dt)
    else if n = "fish_name" then some (.str rec.sFishType)
    else if n = "fish_grade" then some (.str rec.sSize)
    else if n = "lot" then some (.str "")
    else if n = "n_weight" then some (.rat rec.nWeight)
    else if n = "r_weight" then some (.rat adj_r)
    else if n = "sn" then some (.str rec.sSNumber)
    else if n = "error_info" then some (.str error_info)
    else if n = "tare" then some (.rat cfg.tare)
    else none
  ({ vars := vars, on_error := on_error, error_info := error_info,
     adj_r_weight := adj_r }, some adj_r)

/-! ## mbox/worker.py — counter reconciliation state -/

/-- The mbox worker's counter-coordination state
(`_counter_last_total`, `_pending_pack_ts`, `_miss_deadline_ts`,
`_pending_miss`, `_last_good_vars`). -/
structure CounterState where
  counter_last_total : Option ℤ
  pending_pack_ts : Option ℚ
  miss_deadline_ts : Option ℚ
  pending_miss : ℤ
  last_good_vars : Option (String → Option PyVal)

/-- `_tick_counter_logic(now)`; `total` is the value returned by
`_read_counter_total()`. -/
def tickCounterLogic (cfg : MboxConfig) (total : Option ℤ) (now : ℚ)
    (s : CounterState) : CounterState :=
  match total with
  | none => s
  | some total =>
    match s.counter_last_total with
    | none => { s with counter_last_total := some total }
    | some last =>
      let delta := total - last
      if delta ≤ 0 then s
      else
        let s := { s with counter_last_total := some total }
        match s.pending_pack_ts with
        | some _ => { s with pending_pack_ts := none }   -- clean confirmation
        | none =>
          -- counter increment without pack: schedule miss insert
          { s with pending_miss := s.pending_miss + delta,
                   miss_deadline_ts := some (now + cfg.counter_miss_timeout) }

/-- The `vars_` dict built by `_insert_miss_pack` (base from
`last_good_vars` under the `"last"` strategy, else `miss_default`, then the
fixed overrides).  `nowStr` is `time.strftime("%Y-%m-%d %H:%M:%S")`. -/
def insertMissPackVars (cfg : MboxConfig) (lastGood : Option (String → Option PyVal))
    (nowStr : String) : String → Option PyVal :=
  let base := if cfg.miss_strategy = "last" then lastGood else none
  let base := match base with
    | none => cfg.miss_default
    | some b => b
  fun n =>
    if n = "mbox_id" then some (.int cfg.mbox_id)
    else if n = "tare" then some (.rat cfg.tare)
    else if n = "lot" then some (.str cfg.lot)
    else if n = "on_error" then some (.bool true)
    else if n = "error_info" then some (.str cfg.miss_error_label)
    else if n = "created_at" then some (.str nowStr)
    else base n

/-- `_tick_miss_insert(now)`, together with the `n` calls of
`_insert_miss_pack()` it performs.  The second component is the list of
records inserted into the database (one per successful guarded call:
`_insert_miss_pack` returns without writing when the connection is disabled
or no DB writer is attached). -/
def tickMissInsert (cfg : MboxConfig) (enabled writerPresent : Bool)
    (nowStr : String) (now : ℚ) (s : CounterState) :
    CounterState × List (String → Option PyVal) :=
  match s.miss_deadline_ts with
  | none => (s, [])
  | some deadline =>
    if now < deadline then (s, [])
    else
      let s := { s with miss_deadline_ts := none }
      if s.pending_miss ≤ 0 then (s, [])
      else
        let n := min s.pending_miss (max cfg.miss_insert_limit 1)
        let s := { s with pending_miss := s.pending_miss - n }
        let records :=
          if enabled && writerPresent then
            List.replicate n.toNat (insertMissPackVars cfg s.last_good_vars nowStr)
          else []
        (s, records)

/-! ## mbox/parser.py — `parse_label_frame` -/

/-- Python exceptions distinguished by `parse_label_frame`'s callers: the
documented `ValueError` and the undocumented `IndexError` that escapes the
`except ValueError` handler when a list index is out of range. -/
inductive PyErr where
  | valueError (msg : String)
  | indexError
  deriving DecidableEq, Repr

/-- `payload.decode("ascii")`: fails (`UnicodeDecodeError`) on any byte
≥ 0x80.  (The worker passes the configured encoding; `"ascii"` is the
default and the only one modelled.) -/
def asciiDecode (bs : List ℕ) : Option String :=
  if bs.all (· < 128) then some (String.mk (bs.map Char.ofNat)) else none

/-- Value of an ASCII digit. -/
def digitVal (c : Char) : Option ℕ :=
  if c.isDigit then some (c.toNat - 48) else none

/-- Decimal value of a digit list (most significant first). -/
def digitsToNat (ds : List ℕ) : ℕ :=
  ds.foldl (fun a d => 10 * a + d) 0

/-- Continuation of a digit run after its first digit, allowing single
underscores strictly between digits (CPython's numeric-literal rule for
`float(str)`): returns the digits and the unconsumed rest, or `none` when an
underscore is not followed by a digit (the whole parse then fails). -/
def parseAfterDigit : List Char → Option (List ℕ × List Char)
  | [] => some ([], [])
  | '_' :: rest =>
    match rest with
    | [] => none
    | c :: rest2 =>
      match digitVal c with
      | none => none
      | some d => (parseAfterDigit rest2).map (fun p => (d :: p.1, p.2))
  | c :: rest =>
    match digitVal c with
    | some d => (parseAfterDigit rest).map (fun p => (d :: p.1, p.2))
    | none => some ([], c :: rest)

/-- A (possibly empty) maximal run of digits with embedded underscores. -/
def parseDigitRun (cs : List Char) : Option (List ℕ × List Char) :=
  match cs with
  | [] => some ([], [])
  | c :: rest =>
    match digitVal c with
    | none => some ([], cs)
    | some d => (parseAfterDigit rest).map (fun p => (d :: p.1, p.2))

/-- Python `float(str)` on the finite decimal grammar
`[ws] [sign] digits [. digits] [(e|E) [sign] digits] [ws]` (with underscores
between digits), valued exactly in `ℚ`.  The special spellings
`inf`/`infinity`/`nan` have no rational value and are not modelled; no claim
depends on them. -/
def pyFloat (s : String) : Option ℚ := do
  let cs := pyStripList s.toList
  let (neg, cs) : Bool × List Char :=
    match cs with
    | '+' :: t => (false, t)
    | '-' :: t => (true, t)
    | _ => (false, cs)
  let (intDs, r1) ← parseDigitRun cs
  let (fracDs, r2) ←
    match r1 with
    | '.' :: t => parseDigitRun t
    | _ => pure (([] : List ℕ), r1)
  if intDs = [] ∧ fracDs = [] then none
  else
    let mant : ℚ := (digitsToNat intDs : ℚ) +
      (digitsToNat fracDs : ℚ) / ((10 : ℚ) ^ fracDs.length)
    let (expNeg, expDs, r3) ←
      match r2 with
      | c :: t =>
        if c = 'e' ∨ c = 'E' then do
          let (esign, t2) : Bool × List Char :=
            match t with
            | '+' :: t2 => (false, t2)
            | '-' :: t2 => (true, t2)
            | _ => (false, t)
          let (eds, r) ← parseDigitRun t2
          if eds = [] then none else pure (esign, eds, r)
        else pure (false, ([] : List ℕ), c :: t)
      | [] => pure (false, ([] : List ℕ), ([] : List Char))
    if r3 = [] then
      let e : ℤ := if expNeg then -(digitsToNat expDs : ℤ) else (digitsToNat expDs : ℤ)
      let v := mant * (10 : ℚ) ^ e
      pure (if neg then -v else v)
    else none

/-- Exactly `k` leading digits. -/
def takeDigitsK : ℕ → List Char → Option (List ℕ × List Char)
  | 0, cs => some ([], cs)
  | _ + 1, [] => none
  | k + 1, c :: r =>
    match digitVal c with
    | none => none
    | some d => (takeDigitsK k r).map (fun p => (d :: p.1, p.2))

/-- Two-digit value. -/
def digit2 (a b : Char) : Option ℕ :=
  match digitVal a, digitVal b with
  | some x, some y => some (10 * x + y)
  | _, _ => none

/-- Candidate matches for `%m` (`1[0-2]|0[1-9]|[1-9]`), in the regex's
backtracking order: two-digit alternatives first, then one-digit. -/
def candM (cs : List Char) : List (ℕ × List Char) :=
  (match cs with
   | a :: b :: r =>
     match digit2 a b with
     | some v => if (10 ≤ v ∧ v ≤ 12) ∨ (1 ≤ v ∧ v ≤ 9 ∧ a = '0') then [(v, r)] else []
     | none => []
   | _ => []) ++
  (match cs with
   | a :: r =>
     match digitVal a with
     | some v => if 1 ≤ v ∧ v ≤ 9 then [(v, r)] else []
     | none => []
   | _ => [])

/-- Candidate matches for `%d` (`3[01]|[12]\d|0[1-9]|[1-9]`). -/
def candD (cs : List Char) : List (ℕ × List Char) :=
  (match cs with
   | a :: b :: r =>
     match digit2 a b with
     | some v =>
       if (30 ≤ v ∧ v ≤ 31) ∨ (10 ≤ v ∧ v ≤ 29) ∨ (1 ≤ v ∧ v ≤ 9 ∧ a = '0') then
         [(v, r)]
       else []
     | none => []
   | _ => []) ++
  (match cs with
   | a :: r =>
     match digitVal a with
     | some v => if 1 ≤ v ∧ v ≤ 9 then [(v, r)] else []
     | none => []
   | _ => [])

/-- Candidate matches for `%H` (`2[0-3]|[0-1]\d|\d`). -/
def candH (cs : List Char) : List (ℕ × List Char) :=
  (match cs with
   | a :: b :: r =>
     match digit2 a b with
     | some v => if v ≤ 23 then [(v, r)] else []
     | none => []
   | _ => []) ++
  (match cs with
   | a :: r =>
     match digitVal a with
     | some v => [(v, r)]
     | none => []
   | _ => [])

/-- Candidate matches for `%M` (`[0-5]\d|\d`). -/
def candMin (cs : List Char) : List (ℕ × List Char) :=
  (match cs with
   | a :: b :: r =>
     match digit2 a b with
     | some v => if v ≤ 59 then [(v, r)] else []
     | none => []
   | _ => []) ++
  (match cs with
   | a :: r =>
     match digitVal a with
     | some v => [(v, r)]
     | none => []
   | _ => [])

/-- Candidate matches for `%S` (`6[0-1]|[0-5]\d|\d`). -/
def candS (cs : List Char) : List (ℕ × List Char) :=
  (match cs with
   | a :: b :: r =>
     match digit2 a b with
     | some v => if v ≤ 61 then [(v, r)] else []
     | none => []
   | _ => []) ++
  (match cs with
   | a :: r =>
     match digitVal a with
     | some v => [(v, r)]
     | none => []
   | _ => [])

/-- Candidate matches for `%f` (`[0-9]{1,6}`, greedy: longest first), scaled
to microseconds as `_strptime` does (`int(f.ljust(6, "0"))`). -/
def candF (cs : List Char) : List (ℕ × List Char) :=
  [6, 5, 4, 3, 2, 1].filterMap (fun k =>
    (takeDigitsK k cs).map (fun p => (digitsToNat p.1 * 10 ^ (6 - k), p.2)))

/-- Backtracking over an ordered candidate list: return the first candidate
for which the continuation succeeds (regex alternation semantics). -/
def tryCands {α : Type} : List (ℕ × List Char) → (ℕ → List Char → Option α) → Option α
  | [], _ => none
  | (v, r) :: t, k =>
    match k v r with
    | some x => some x
    | none => tryCands t k

/-- The regex match of `_strptime` for the fixed format `%Y%m%d%H%M%S%f`:
`%Y` is exactly four digits, the remaining directives backtrack in the
regex's order, and the whole string must be consumed
("unconverted data remains" otherwise). -/
def strptime17 (cs : List Char) : Option (ℕ × ℕ × ℕ × ℕ × ℕ × ℕ × ℕ) :=
  match takeDigitsK 4 cs with
  | none => none
  | some (yds, r1) =>
    tryCands (candM r1) fun m r2 =>
    tryCands (candD r2) fun d r3 =>
    tryCands (candH r3) fun h r4 =>
    tryCands (candMin r4) fun mi r5 =>
    tryCands (candS r5) fun sec r6 =>
    tryCands (candF r6) fun f r7 =>
    if r7 = [] then some (digitsToNat yds, m, d, h, mi, sec, f) else none

/-- Days per month with the Gregorian leap rule (the `datetime` constructor's
day-range check). -/
def daysInMonth (y m : ℕ) : ℕ :=
  if m = 2 then
    if y % 4 = 0 ∧ (y % 100 ≠ 0 ∨ y % 400 = 0) then 29 else 28
  else if m = 1 ∨ m = 3 ∨ m = 5 ∨ m = 7 ∨ m = 8 ∨ m = 10 ∨ m = 12 then 31
  else 30

/-- `datetime.strptime(s, "%Y%m%d%H%M%S%f")`: regex match, then the
`datetime` constructor's range checks.  The regex already bounds
`month ∈ 1..12`, `day ≥ 1`, `hour ≤ 23`, `minute ≤ 59`, `second ≤ 61`,
`microsecond < 10⁶`; the constructor additionally requires `year ≥ MINYEAR`,
`day` within the month, and rejects the leap seconds 60/61. -/
def pyStrptimeDT (s : String) : Option PyDateTime :=
  match strptime17 s.toList with
  | none => none
  | some (y, m, d, h, mi, sec, f) =>
    if 1 ≤ y ∧ 1 ≤ d ∧ d ≤ daysInMonth y m ∧ sec ≤ 59 then
      some ⟨y, m, d, h, mi, sec, f⟩
    else none

/-- Python `text.split(",")` on a char list: always at least one part;
adjacent separators yield empty parts. -/
def splitOnComma : List Char → List (List Char)
  | [] => [[]]
  | c :: rest =>
    if c = ',' then [] :: splitOnComma rest
    else
      match splitOnComma rest with
      | [] => [[c]]                -- unreachable: the result is never empty
      | p :: ps => (c :: p) :: ps

/-- `parse_label_frame(payload)` (default ASCII encoding): decode, strip,
split on `","`, check `len(parts) < 10`, parse the datetime at column 0 and
the floats at columns 9 and 10, and build the record from columns 6, 7, 8.
The access `parts[10]` sits inside a `try` that catches only `ValueError`,
so when exactly 10 columns are present the `IndexError` escapes.  The
`ValueError` messages are abbreviated (no claim inspects their text). -/
def parse_label_frame (payload : List ℕ) : Except PyErr MboxLabelRecord :=
  match asciiDecode payload with
  | none => .error (.valueError "decode error")
  | some text =>
    let parts := splitOnComma (pyStripList text.toList)
    if parts.length < 10 then
      .error (.valueError "expected at least 10 fields")
    else
      match pyStrptimeDT (String.mk (parts.getD 0 [])) with
      | none => .error (.valueError "invalid datetime")
      | some dt =>
        match pyFloat (String.mk (parts.getD 9 [])) with
        | none => .error (.valueError "invalid weight value")
        | some n_weight =>
          match parts.get? 10 with
          | none => .error .indexError
          | some p10 =>
            match pyFloat (String.mk p10) with
            | none => .error (.valueError "invalid weight value")
            | some r_weight =>
              .ok { dt := dt
                    sFishType := pyStrip (String.mk (parts.getD 6 []))
                    sSize := pyStrip (String.mk (parts.getD 8 []))
                    nWeight := n_weight
                    rWeight := r_weight
                    sSNumber := pyStrip (String.mk (parts.getD 7 [])) }

end ULogger

open ULogger

/-- `indexOfByte` returns `none` on a list not containing the byte. -/
theorem indexOfByte_eq_none {x : ℕ} {l : List ℕ} (h : x ∉ l) :
    indexOfByte x l = none := by
  induction l with
  | nil => rfl
  | cons b t ih =>
    simp only [List.mem_cons, not_or] at h
    simp [indexOfByte, Ne.symm h.1, ih h.2]

/-- On `noise ++ (x :: t)` with `x ∉ noise`, the first occurrence of `x` is at
index `noise.length`. -/
theorem indexOfByte_append {x : ℕ} {noise t : List ℕ} (h : x ∉ noise) :
    indexOfByte x (noise ++ x :: t) = some noise.length := by
  induction noise with
  | nil => simp [indexOfByte]
  | cons b bs ih =>
    simp only [List.mem_cons, not_or] at h
    simp [indexOfByte, Ne.symm h.1, ih h.2]

/-- The result of `mcFeedGo` does not depend on the fuel, as long as the fuel
exceeds the buffer length. -/
theorem mcFeedGo_fuel_irrelevant :
    ∀ f₁ f₂ buf, buf.length < f₁ → buf.length < f₂ → mcFeedGo f₁ buf = mcFeedGo f₂ buf := by
  intro f₁
  induction f₁ with
  | zero => intro f₂ buf h₁ _; omega
  | succ f₁ ih =>
    intro f₂ buf h₁ h₂
    match f₂, h₂ with
    | f₂ + 1, h₂ =>
      simp only [mcFeedGo]
      cases hfind : indexOfByte PREAMBLE buf with
      | none => rfl
      | some stx =>
        dsimp only
        split_ifs with hlen hguard hfl
        · rfl
        · exact absurd hguard (by omega)
        · rfl
        · have hr₁ : ((buf.drop stx).drop (4 + (buf.drop stx).getD 1 0)).length < f₁ := by
            simp only [List.length_drop] at *
            omega
          have hr₂ : ((buf.drop stx).drop (4 + (buf.drop stx).getD 1 0)).length < f₂ := by
            simp only [List.length_drop] at *
            omega
          rw [ih f₂ _ hr₁ hr₂]

/-- `mcFeed` on an empty internal buffer is `mcFeedGo` with its standard fuel. -/
theorem mcFeed_nil (data : List ℕ) :
    mcFeed [] data = mcFeedGo (data.length + 1) data := by
  cases data with
  | nil => rfl
  | cons b t => simp [mcFeed]

/-- Leading garbage containing no preamble byte is skipped inside a single
loop iteration of `mcFeedGo`. -/
theorem mcFeedGo_skip (fuel : ℕ) (noise1 rest : List ℕ) (hn : PREAMBLE ∉ noise1)
    (hr : ∃ t, rest = PREAMBLE :: t) :
    mcFeedGo (fuel + 1) (noise1 ++ rest) = mcFeedGo (fuel + 1) rest := by
  obtain ⟨t, rfl⟩ := hr
  simp only [mcFeedGo, indexOfByte_append hn, List.drop_left]
  have h0 : indexOfByte PREAMBLE (PREAMBLE :: t) = some 0 := by
    simp [indexOfByte]
  rw [h0]
  dsimp only [List.drop_zero]

/-- A buffer starting with a complete well-formed frame `F` (preamble byte,
declared length matching) emits exactly `F` and continues on the remainder. -/
theorem mcFeedGo_emit (fuel : ℕ) (f1 : ℕ) (ft2 noise2 : List ℕ)
    (hlen : ft2.length + 2 = 4 + f1) :
    mcFeedGo (fuel + 1) ((PREAMBLE :: f1 :: ft2) ++ noise2) =
      ((PREAMBLE :: f1 :: ft2) :: (mcFeedGo fuel noise2).1, (mcFeedGo fuel noise2).2) := by
  have h0 : indexOfByte PREAMBLE ((PREAMBLE :: f1 :: ft2) ++ noise2) = some 0 := by
    simp [indexOfByte]
  simp only [mcFeedGo, h0]
  dsimp only [List.drop_zero]
  have hgetD : ((PREAMBLE :: f1 :: ft2) ++ noise2).getD 1 0 = f1 := by
    simp [List.getD]
  rw [hgetD]
  rw [if_neg (by simp only [List.length_append, List.length_cons]; omega), if_neg (by omega),
      if_neg (by simp only [List.length_append, List.length_cons]; omega)]
  rw [List.take_left' (by simp only [List.length_cons]; omega),
      List.drop_left' (by simp only [List.length_cons]; omega)]

/-- **C7.** `build_read_request(0x1A78)` returns exactly the bytes
`27 05 43 78 1a 1f 01 00 f3`, and `parse_response_frame` applied to
`27 0a 08 78 1a cd 28 1c 29 00 01 00 05 0d` succeeds and returns
`serial = 0x1A78`, `total_count = 2694184`, `flags = 0x05` (the CRC8/E5
checks therefore pass on both frames). -/
theorem C7_counter_protocol_vectors :
    ULogger.build_read_request 0x1A78 =
      .ok [0x27, 0x05, 0x43, 0x78, 0x1A, 0x1F, 0x01, 0x00, 0xF3] ∧
    ∃ r, ULogger.parse_response_frame
        [0x27, 0x0A, 0x08, 0x78, 0x1A, 0xCD, 0x28, 0x1C, 0x29, 0x00, 0x01, 0x00, 0x05, 0x0D] =
        .ok r ∧ r.serial = 0x1A78 ∧ r.total_count = 2694184 ∧ r.flags = 0x05 := by
  refine ⟨rfl, ⟨_, rfl, by decide, by decide, by decide⟩⟩

/-- **C4, counterexample.** The claim fails for arbitrary noise: with
`noise1 = [0x27, 0x01]`, the framer synchronises on the noise byte `0x27`,
reads `L = 1` and cuts a 5-byte frame that swallows the first three bytes of
the valid frame `F = [0x27, 0x00, 0xAA, 0xBB]` (which satisfies `F[0] = 0x27`
and `len F = 4 + F[1]`), so `F` is emitted zero times, not exactly once. -/
theorem C4_mbox_counter_framer_counterexample :
    ([0x27, 0x00, 0xAA, 0xBB] : List ℕ).getD 0 0 = 0x27 ∧
    ([0x27, 0x00, 0xAA, 0xBB] : List ℕ).length = 4 + ([0x27, 0x00, 0xAA, 0xBB] : List ℕ).getD 1 0 ∧
    ¬ ((mcFeed [] ([0x27, 0x01] ++ [0x27, 0x00, 0xAA, 0xBB] ++ [])).1.count
        [0x27, 0x00, 0xAA, 0xBB] = 1) := by
  refine ⟨by decide, by decide, by decide⟩

/-- **C4, amended.** For the mbox-counter framer: if `F` is a valid counter
frame (`F[0] = 0x27`, `len F = 4 + F[1]`) and the leading noise `noise1`
contains no `0x27` byte, then feeding `noise1 ++ F ++ noise2` into a freshly
constructed framer emits `F` first, followed exactly by the frames that
`noise2` alone would produce; in particular `F` is emitted exactly once
whenever `noise2` alone does not produce `F`. -/
theorem C4_mbox_counter_framer_amended (noise1 F noise2 : List ℕ)
    (hF0 : F.getD 0 0 = 0x27) (hFlen : F.length = 4 + F.getD 1 0)
    (hn : (0x27 : ℕ) ∉ noise1) :
    (mcFeed [] (noise1 ++ F ++ noise2)).1 = F :: (mcFeed [] noise2).1 ∧
    (mcFeed [] (noise1 ++ F ++ noise2)).1.count F = (mcFeed [] noise2).1.count F + 1 := by
  obtain ⟨f1, ft2, rfl⟩ : ∃ f1 ft2, F = PREAMBLE :: f1 :: ft2 := by
    cases F with
    | nil => simp at hFlen
    | cons a t =>
      cases t with
      | nil => simp [List.getD] at hFlen
      | cons b t2 =>
        have ha : a = PREAMBLE := by simpa [List.getD, PREAMBLE] using hF0
        exact ⟨b, t2, by rw [ha]⟩
  have hlen2 : ft2.length + 2 = 4 + f1 := by
    simpa [List.getD] using hFlen
  have hmain : (mcFeed [] (noise1 ++ (PREAMBLE :: f1 :: ft2) ++ noise2)).1 =
      (PREAMBLE :: f1 :: ft2) :: (mcFeed [] noise2).1 := by
    have htot : noise1 ++ (PREAMBLE :: f1 :: ft2) ++ noise2 =
        noise1 ++ ((PREAMBLE :: f1 :: ft2) ++ noise2) := by
      simp
    rw [mcFeed_nil, htot]
    set N := (noise1 ++ ((PREAMBLE :: f1 :: ft2) ++ noise2)).length with hN
    have hNpos : noise2.length + 4 ≤ N := by
      simp only [hN, List.length_append, List.length_cons]
      omega
    rw [mcFeedGo_skip N noise1 ((PREAMBLE :: f1 :: ft2) ++ noise2) hn
          ⟨f1 :: (ft2 ++ noise2), by simp⟩]
    rw [mcFeedGo_emit N f1 ft2 noise2 hlen2]
    rw [mcFeedGo_fuel_irrelevant N (noise2.length + 1) noise2 (by omega) (by omega)]
    rw [← mcFeed_nil]
  refine ⟨hmain, ?_⟩
  rw [hmain, List.count_cons_self]

/-- **C4, witness** for the amended theorem at concrete inputs. -/
theorem C4_mbox_counter_framer_witness :
    (([0x27, 0x05, 0x01, 0x02, 0x03, 0x04, 0x05, 0x06, 0x07] : List ℕ).getD 0 0 = 0x27 ∧
     ([0x27, 0x05, 0x01, 0x02, 0x03, 0x04, 0x05, 0x06, 0x07] : List ℕ).length =
       4 + ([0x27, 0x05, 0x01, 0x02, 0x03, 0x04, 0x05, 0x06, 0x07] : List ℕ).getD 1 0 ∧
     (0x27 : ℕ) ∉ ([0x00, 0x10] : List ℕ)) ∧
    (mcFeed [] ([0x00, 0x10] ++ [0x27, 0x05, 0x01, 0x02, 0x03, 0x04, 0x05, 0x06, 0x07] ++ [0x09])).1 =
      [0x27, 0x05, 0x01, 0x02, 0x03, 0x04, 0x05, 0x06, 0x07] :: (mcFeed [] [0x09]).1 ∧
    (mcFeed [] ([0x00, 0x10] ++ [0x27, 0x05, 0x01, 0x02, 0x03, 0x04, 0x05, 0x06, 0x07] ++ [0x09])).1.count
        [0x27, 0x05, 0x01, 0x02, 0x03, 0x04, 0x05, 0x06, 0x07] =
      (mcFeed [] [0x09]).1.count [0x27, 0x05, 0x01, 0x02, 0x03, 0x04, 0x05, 0x06, 0x07] + 1 := by
  have h := C4_mbox_counter_framer_amended [0x00, 0x10]
    [0x27, 0x05, 0x01, 0x02, 0x03, 0x04, 0x05, 0x06, 0x07] [0x09]
    (by decide) (by decide) (by decide)
  exact ⟨⟨by decide, by decide, by decide⟩, h.1, h.2⟩

/-- A successful `subFind` locates an occurrence: the needle is a prefix of
the suffix starting at the returned index. -/
theorem subFind_isPrefixOf_drop {p l : List ℕ} {i : ℕ} (h : subFind p l = some i) :
    p.isPrefixOf (l.drop i) := by
  induction l generalizing i with
  | nil =>
    simp only [subFind] at h
    split_ifs at h with hp
    injection h with h'
    subst h' hp
    simp
  | cons b t ih =>
    simp only [subFind] at h
    split_ifs at h with hp
    · injection h with h'
      subst h'
      simpa using hp
    · obtain ⟨j, hj, rfl⟩ := Option.map_eq_some'.mp h
      simpa using ih hj

/-- A non-empty needle that is a prefix of the haystack is found at index 0. -/
theorem subFind_of_prefix {p l : List ℕ} (hp : p ≠ []) (h : p.isPrefixOf l) :
    subFind p l = some 0 := by
  cases l with
  | nil =>
    cases p with
    | nil => exact absurd rfl hp
    | cons a t => simp [List.isPrefixOf] at h
  | cons b t => simp [subFind, h]

/-- Core bound for the easy-serial framer with a preamble of length ≥ 2:
whenever a (sufficiently fuelled) run of the feed loop ends with a buffer in
which the preamble does not occur, that buffer holds at most
`len(preamble) - 1` bytes. -/
theorem esFeedGo_noise_bound (pre term : List ℕ) (hpre : 2 ≤ pre.length) :
    ∀ fuel buf, buf.length < fuel →
      subFind pre (esFeedGo (some pre) term fuel buf).2 = none →
      (esFeedGo (some pre) term fuel buf).2.length ≤ pre.length - 1 := by
  intro fuel
  induction fuel with
  | zero => intro buf h _; omega
  | succ fuel ih =>
    intro buf hlen hno
    simp only [esFeedGo] at hno ⊢
    cases hf : subFind pre buf with
    | none =>
      dsimp only at hno ⊢
      split_ifs with htrim
      · simp only [List.length_drop]
        omega
      · omega
    | some idx =>
      rw [hf] at hno
      dsimp only at hno ⊢
      have hpref := subFind_isPrefixOf_drop hf
      have hblen : pre.length ≤ (buf.drop idx).length :=
        (List.isPrefixOf_iff_prefix.mp hpref).length_le
      cases ht : subFindFrom term (buf.drop idx) pre.length with
      | none =>
        rw [ht] at hno
        dsimp only at hno ⊢
        have h0 : subFind pre (buf.drop idx) = some 0 :=
          subFind_of_prefix (by intro h; rw [h] at hpre; simp at hpre) hpref
        rw [h0] at hno
        cases hno
      | some tIdx =>
        rw [ht] at hno
        dsimp only at hno ⊢
        have htIdx : pre.length ≤ tIdx := by
          obtain ⟨j, _, rfl⟩ := Option.map_eq_some'.mp ht
          omega
        have hrec : ((buf.drop idx).drop (tIdx + term.length)).length < fuel := by
          simp only [List.length_drop] at *
          omega
        exact ih _ hrec hno

/-- **C1, counterexample.** With the one-byte preamble `[0x41]` (a non-empty
preamble) and terminator `[0x0A]`, feeding the noise `[0x42, 0x42]` leaves a
buffer with no occurrence of the preamble whose length is 2, exceeding
`len(preamble) - 1 = 0`: the trim is skipped entirely because
`max_keep = 0` fails the `max_keep > 0` guard, so pure noise accumulates
without bound. -/
theorem C1_easy_serial_buffer_counterexample :
    ([0x41] : List ℕ) ≠ [] ∧
    subFind [0x41] (esFeed (some [0x41]) [0x0A] [] [0x42, 0x42]).2 = none ∧
    ¬ ((esFeed (some [0x41]) [0x0A] [] [0x42, 0x42]).2.length ≤
        ([0x41] : List ℕ).length - 1) := by
  refine ⟨by decide, by decide, by decide⟩

/-- **C1, amended.** For the easy-serial framer constructed with a preamble of
at least two bytes: after every feed of a non-empty chunk whose final buffer
contains no occurrence of the preamble, at most `len(preamble) - 1` trailing
bytes are retained, so pure noise keeps the buffer bounded.  (For a one-byte
preamble the trim is skipped — `max_keep = 0` — and the buffer grows without
bound; see the counterexample.) -/
theorem C1_easy_serial_buffer_bound (pre term buf data : List ℕ)
    (hpre : 2 ≤ pre.length) (hdata : data ≠ [])
    (hno : subFind pre (esFeed (some pre) term buf data).2 = none) :
    (esFeed (some pre) term buf data).2.length ≤ pre.length - 1 := by
  unfold esFeed at hno ⊢
  rw [if_neg hdata] at hno ⊢
  exact esFeedGo_noise_bound pre term hpre _ _ (Nat.lt_succ_self _) hno

/-- **C1, witness** for the amended theorem at concrete inputs
(preamble `[0x02, 0x24]`, terminator `[0x0A]`, noise `[0x41]`). -/
theorem C1_easy_serial_buffer_witness :
    (2 ≤ ([0x02, 0x24] : List ℕ).length ∧ ([0x41] : List ℕ) ≠ [] ∧
     subFind [0x02, 0x24] (esFeed (some [0x02, 0x24]) [0x0A] [] [0x41]).2 = none) ∧
    (esFeed (some [0x02, 0x24]) [0x0A] [] [0x41]).2.length ≤
      ([0x02, 0x24] : List ℕ).length - 1 := by
  refine ⟨⟨by decide, by decide, by decide⟩, ?_⟩
  exact C1_easy_serial_buffer_bound [0x02, 0x24] [0x0A] [] [0x41]
    (by decide) (by decide) (by decide)

/-- **C3, counterexample.** A freshly created worker (state `CREATED`,
hence not `RUNNING`) changes state when `stop()` is called: the call sets
`STOPPING` unconditionally, so it is not a no-op. -/
theorem C3_worker_stop_counterexample :
    (WorkerRuntime.mk WorkerState.created false).state ≠ WorkerState.running ∧
    (workerStop (WorkerRuntime.mk WorkerState.created false)).state ≠
      (WorkerRuntime.mk WorkerState.created false).state := by
  decide

/-- **C3, amended.** For every worker, `stop()` unconditionally sets the state
to `STOPPING` and signals the stop event, whatever the current state; in
particular the state field is left unchanged by the call if and only if the
worker was already `STOPPING`. -/
theorem C3_worker_stop_amended (w : WorkerRuntime) :
    (workerStop w).state = WorkerState.stopping ∧
    (workerStop w).stopEvent = true ∧
    ((workerStop w).state = w.state ↔ w.state = WorkerState.stopping) := by
  refine ⟨rfl, rfl, ?_⟩
  constructor
  · intro h
    exact h.symm
  · intro h
    exact h.symm

/-- **C9.** For every pair of 16-bit registers and every 32-bit encoding, the
CDAB variant applied to `[r0, r1]` equals the corresponding ABCD variant
applied to the swapped pair `[r1, r0]` — for u32, s32 and f32, scaled or not,
for every float-bit interpretation `f` and every scaling `k`, `b`. -/
theorem C9_modbus_word_swap (f : ℕ → ℚ) (k b : ℚ) (r0 r1 : ℕ) :
    (decode_registers f [r0, r1] ⟨.u32_cdab, k, b⟩ =
       decode_registers f [r1, r0] ⟨.u32_abcd, k, b⟩) ∧
    (decode_registers f [r0, r1] ⟨.u32_scaled_cdab, k, b⟩ =
       decode_registers f [r1, r0] ⟨.u32_scaled_abcd, k, b⟩) ∧
    (decode_registers f [r0, r1] ⟨.s32_cdab, k, b⟩ =
       decode_registers f [r1, r0] ⟨.s32_abcd, k, b⟩) ∧
    (decode_registers f [r0, r1] ⟨.s32_scaled_cdab, k, b⟩ =
       decode_registers f [r1, r0] ⟨.s32_scaled_abcd, k, b⟩) ∧
    (decode_registers f [r0, r1] ⟨.f32_cdab, k, b⟩ =
       decode_registers f [r1, r0] ⟨.f32_abcd, k, b⟩) ∧
    (decode_registers f [r0, r1] ⟨.f32_scaled_cdab, k, b⟩ =
       decode_registers f [r1, r0] ⟨.f32_scaled_abcd, k, b⟩) := by
  refine ⟨rfl, rfl, rfl, rfl, rfl, rfl⟩

/-- **C10.** When the transformer processes a record with
`treat_zero_as_error` enabled and the tare-adjusted weight clamps to zero
(`r_weight ≤ tare`), the updated `last_adj_r_weight` state is the record's
net weight — the fallback value substituted into `r_weight` — not zero; and
the duplicate check for a next record (whose own adjusted weight `adj₂` does
not clamp to zero) compares `adj₂` against that net weight. -/
theorem C10_transform_zero_updates_state (cfg : MboxConfig) (lastAdj : Option ℚ)
    (mbox_id : ℤ) (rec : MboxLabelRecord)
    (hz : cfg.treat_zero_as_error = true) (hw : rec.rWeight ≤ cfg.tare) :
    (mboxTransform cfg lastAdj mbox_id rec).2 = some rec.nWeight ∧
    (mboxTransform cfg lastAdj mbox_id rec).1.vars "r_weight" =
      some (.rat rec.nWeight) ∧
    ∀ (mbox_id₂ : ℤ) (rec₂ : MboxLabelRecord),
      cfg.treat_duplicate_as_error = true →
      ¬ (rec₂.rWeight ≤ cfg.tare) →
      ((mboxTransform cfg (mboxTransform cfg lastAdj mbox_id rec).2 mbox_id₂ rec₂).1.on_error
          = true ↔ rec₂.rWeight - cfg.tare = rec.nWeight) := by
  have hclamp : (if rec.rWeight - cfg.tare < 0 then (0 : ℚ) else rec.rWeight - cfg.tare) = 0 := by
    rcases lt_or_eq_of_le (sub_nonpos.mpr hw) with h | h
    · rw [if_pos h]
    · rw [h, if_neg (lt_irrefl 0)]
  have hzero : (cfg.treat_zero_as_error = true ∧
      (if rec.rWeight - cfg.tare < 0 then (0 : ℚ) else rec.rWeight - cfg.tare) = 0) := ⟨hz, hclamp⟩
  constructor
  · simp only [mboxTransform, if_pos hzero]
  constructor
  · simp only [mboxTransform, if_pos hzero]
    simp
  · intro mbox_id₂ rec₂ hdup hnz
    have h2 : (mboxTransform cfg lastAdj mbox_id rec).2 = some rec.nWeight := by
      simp only [mboxTransform, if_pos hzero]
    rw [h2]
    have hclamp₂ : (if rec₂.rWeight - cfg.tare < 0 then (0 : ℚ) else rec₂.rWeight - cfg.tare) =
        rec₂.rWeight - cfg.tare := by
      rw [if_neg]
      intro hlt
      exact hnz (le_of_lt (by linarith [sub_neg.mp hlt]))
    have hnz₂ : ¬ (cfg.treat_zero_as_error = true ∧ rec₂.rWeight - cfg.tare = 0) := by
      rintro ⟨-, hzero₂⟩
      exact hnz (by linarith [sub_eq_zero.mp hzero₂])
    simp only [mboxTransform, hclamp₂, if_neg hnz₂, hdup]
    rcases eq_or_ne (rec₂.rWeight - cfg.tare) rec.nWeight with he | he
    · rw [he]
      simp
    · simp [Ne.symm he, he]

/-- **C10, witness** at concrete inputs: tare 1, first record with raw
weight 1/2 (clamps to zero) and net weight 5, second record with raw
weight 6 (adjusted weight 5, matching the stored net weight). -/
theorem C10_transform_zero_updates_state_witness :
    (({ mbox_id := 1, tare := 1, lot := "", treat_zero_as_error := true,
        treat_duplicate_as_error := true, error_label_zero := "no weight",
        error_label_duplicate := "no weight", counter_clean_timeout := 6,
        counter_miss_timeout := 4, miss_strategy := "last",
        miss_default := fun _ => none, miss_insert_limit := 1,
        miss_error_label := "scales error" } : MboxConfig).treat_zero_as_error = true ∧
      (1 / 2 : ℚ) ≤ 1) ∧
    (mboxTransform
        { mbox_id := 1, tare := 1, lot := "", treat_zero_as_error := true,
          treat_duplicate_as_error := true, error_label_zero := "no weight",
          error_label_duplicate := "no weight", counter_clean_timeout := 6,
          counter_miss_timeout := 4, miss_strategy := "last",
          miss_default := fun _ => none, miss_insert_limit := 1,
          miss_error_label := "scales error" }
        none 1
        { dt := ⟨2024, 1, 1, 12, 30, 15, 999000⟩, sFishType := "M", sSize := "S",
          nWeight := 5, rWeight := 1 / 2, sSNumber := "SN" }).2 = some 5 := by
  have h := C10_transform_zero_updates_state
    { mbox_id := 1, tare := 1, lot := "", treat_zero_as_error := true,
      treat_duplicate_as_error := true, error_label_zero := "no weight",
      error_label_duplicate := "no weight", counter_clean_timeout := 6,
      counter_miss_timeout := 4, miss_strategy := "last",
      miss_default := fun _ => none, miss_insert_limit := 1,
      miss_error_label := "scales error" }
    none 1
    { dt := ⟨2024, 1, 1, 12, 30, 15, 999000⟩, sFishType := "M", sSize := "S",
      nWeight := 5, rWeight := 1 / 2, sSNumber := "SN" }
    rfl (by norm_num)
  exact ⟨⟨rfl, by norm_num⟩, h.1⟩

/-- **C5.** In the mbox worker's counter reconciliation, `pending_pack_ts`
(the clean-window deadline) is never cleared by the passage of time or by
`tick_miss`: (i) `_tick_miss_insert` leaves it untouched; (ii) the effect of
`_tick_counter_logic` on it does not depend on `now` (no step compares the
current time against it); (iii) whenever `_tick_counter_logic` changes it,
the change clears it (`none`), and this happens only when a counter total was
read, the previous total was known, the delta is positive and a pack was
pending. -/
theorem C5_pending_pack_never_expires (cfg : MboxConfig) (total : Option ℤ)
    (enabled writerPresent : Bool) (nowStr : String) (now nowAlt : ℚ)
    (s : CounterState) :
    (tickMissInsert cfg enabled writerPresent nowStr now s).1.pending_pack_ts =
      s.pending_pack_ts ∧
    (tickCounterLogic cfg total now s).pending_pack_ts =
      (tickCounterLogic cfg total nowAlt s).pending_pack_ts ∧
    ((tickCounterLogic cfg total now s).pending_pack_ts ≠ s.pending_pack_ts →
      (tickCounterLogic cfg total now s).pending_pack_ts = none ∧
      ∃ t last, total = some t ∧ s.counter_last_total = some last ∧
        0 < t - last ∧ s.pending_pack_ts ≠ none) := by
  refine ⟨?_, ?_, ?_⟩
  · unfold tickMissInsert
    cases s.miss_deadline_ts with
    | none => rfl
    | some d =>
      dsimp only
      split_ifs <;> rfl
  · unfold tickCounterLogic
    cases total with
    | none => rfl
    | some t =>
      dsimp only
      cases s.counter_last_total with
      | none => rfl
      | some last =>
        dsimp only
        split_ifs with hd
        · rfl
        · cases s.pending_pack_ts <;> rfl
  · intro hchange
    unfold tickCounterLogic at hchange ⊢
    cases htot : total with
    | none =>
      rw [htot] at hchange
      exact absurd rfl hchange
    | some t =>
      rw [htot] at hchange
      dsimp only at hchange ⊢
      cases hlast : s.counter_last_total with
      | none =>
        rw [hlast] at hchange
        exact absurd rfl hchange
      | some last =>
        rw [hlast] at hchange
        dsimp only at hchange ⊢
        split_ifs at hchange ⊢ with hd
        · exact absurd rfl hchange
        · cases hp : s.pending_pack_ts with
          | none =>
            rw [hp] at hchange
            exact absurd rfl hchange
          | some p =>
            rw [hp] at hchange
            exact ⟨rfl, t, last, rfl, rfl, by omega, by simp⟩

/-- **C5, witness**: the theorem instantiated at a concrete state with a
pending pack and a positive counter delta, together with the concrete fact
that the delta-observing tick does clear the pending pack. -/
theorem C5_pending_pack_never_expires_witness :
    ((tickMissInsert
        { mbox_id := 1, tare := 0, lot := "", treat_zero_as_error := true,
          treat_duplicate_as_error := true, error_label_zero := "no weight",
          error_label_duplicate := "no weight", counter_clean_timeout := 6,
          counter_miss_timeout := 4, miss_strategy := "last",
          miss_default := fun _ => none, miss_insert_limit := 1,
          miss_error_label := "scales error" }
        true true "2026-01-01 00:00:00" 100
        { counter_last_total := some 3, pending_pack_ts := some 7,
          miss_deadline_ts := some 5, pending_miss := 2,
          last_good_vars := none }).1.pending_pack_ts = some 7) ∧
    (tickCounterLogic
        { mbox_id := 1, tare := 0, lot := "", treat_zero_as_error := true,
          treat_duplicate_as_error := true, error_label_zero := "no weight",
          error_label_duplicate := "no weight", counter_clean_timeout := 6,
          counter_miss_timeout := 4, miss_strategy := "last",
          miss_default := fun _ => none, miss_insert_limit := 1,
          miss_error_label := "scales error" }
        (some 5) 100
        { counter_last_total := some 3, pending_pack_ts := some 7,
          miss_deadline_ts := some 5, pending_miss := 2,
          last_good_vars := none }).pending_pack_ts = none := by
  have h := C5_pending_pack_never_expires
    { mbox_id := 1, tare := 0, lot := "", treat_zero_as_error := true,
      treat_duplicate_as_error := true, error_label_zero := "no weight",
      error_label_duplicate := "no weight", counter_clean_timeout := 6,
      counter_miss_timeout := 4, miss_strategy := "last",
      miss_default := fun _ => none, miss_insert_limit := 1,
      miss_error_label := "scales error" }
    (some 5) true true "2026-01-01 00:00:00" 100 200
    { counter_last_total := some 3, pending_pack_ts := some 7,
      miss_deadline_ts := some 5, pending_miss := 2, last_good_vars := none }
  exact ⟨h.1, rfl⟩

/-- **C6.** `tick_miss`: when `miss_deadline` is set and `now ≥ miss_deadline`,
the tick clears the deadline, computes `n = min(pending_miss,
max(miss_insert_limit, 1))`, decrements `pending_miss` by exactly `n`, leaves
the rest of the reconciliation state alone, and — when the connection is
enabled and a DB writer is present — inserts exactly `n` synthetic miss
records, each with `on_error = true`, `error_info = miss_error_label`, and
`mbox_id`, `tare`, `lot` taken from the configuration; when `miss_deadline`
is unset or `now` is before it, state and insertions are unchanged. -/
theorem C6_tick_miss_contract (cfg : MboxConfig) (enabled writerPresent : Bool)
    (nowStr : String) (now : ℚ) (s : CounterState) (hpm : 0 ≤ s.pending_miss) :
    (s.miss_deadline_ts = none →
      tickMissInsert cfg enabled writerPresent nowStr now s = (s, [])) ∧
    (∀ d, s.miss_deadline_ts = some d → now < d →
      tickMissInsert cfg enabled writerPresent nowStr now s = (s, [])) ∧
    (∀ d, s.miss_deadline_ts = some d → d ≤ now →
      (tickMissInsert cfg enabled writerPresent nowStr now s).1.miss_deadline_ts = none ∧
      (tickMissInsert cfg enabled writerPresent nowStr now s).1.pending_miss =
        s.pending_miss - min s.pending_miss (max cfg.miss_insert_limit 1) ∧
      (tickMissInsert cfg enabled writerPresent nowStr now s).1.counter_last_total =
        s.counter_last_total ∧
      (tickMissInsert cfg enabled writerPresent nowStr now s).1.pending_pack_ts =
        s.pending_pack_ts ∧
      (enabled = true → writerPresent = true →
        (tickMissInsert cfg enabled writerPresent nowStr now s).2.length =
          (min s.pending_miss (max cfg.miss_insert_limit 1)).toNat ∧
        ∀ v ∈ (tickMissInsert cfg enabled writerPresent nowStr now s).2,
          v "on_error" = some (.bool true) ∧
          v "error_info" = some (.str cfg.miss_error_label) ∧
          v "mbox_id" = some (.int cfg.mbox_id) ∧
          v "tare" = some (.rat cfg.tare) ∧
          v "lot" = some (.str cfg.lot))) := by
  refine ⟨?_, ?_, ?_⟩
  · intro hnone
    unfold tickMissInsert
    rw [hnone]
  · intro d hd hlt
    unfold tickMissInsert
    rw [hd]
    dsimp only
    rw [if_pos hlt]
  · intro d hd hge
    unfold tickMissInsert
    rw [hd]
    dsimp only
    rw [if_neg (not_lt.mpr hge)]
    by_cases hz : s.pending_miss ≤ 0
    · have hz0 : s.pending_miss = 0 := le_antisymm hz hpm
      rw [if_pos hz]
      have hn : min s.pending_miss (max cfg.miss_insert_limit 1) = 0 := by
        rw [hz0]
        have : (0 : ℤ) < max cfg.miss_insert_limit 1 :=
          lt_of_lt_of_le zero_lt_one (le_max_right _ _)
        omega
      refine ⟨rfl, by rw [hn, sub_zero], rfl, rfl, ?_⟩
      intro _ _
      refine ⟨by rw [hn]; rfl, ?_⟩
      intro v hv
      cases hv
    · rw [if_neg hz]
      dsimp only
      refine ⟨rfl, rfl, rfl, rfl, ?_⟩
      intro he hw
      subst he hw
      rw [show (true && true) = true from rfl, if_pos rfl]
      refine ⟨List.length_replicate _ _, ?_⟩
      intro v hv
      have hv' := (List.eq_of_mem_replicate hv)
      subst hv'
      unfold insertMissPackVars
      refine ⟨?_, ?_, ?_, ?_, ?_⟩ <;> simp

/-- **C6, witness**: a concrete expired deadline with `pending_miss = 3` and
`miss_insert_limit = 2` inserts exactly 2 records and decrements the backlog
to 1. -/
theorem C6_tick_miss_contract_witness :
    ((0 : ℤ) ≤
      ({ counter_last_total := some 9, pending_pack_ts := none,
         miss_deadline_ts := some 5, pending_miss := 3,
         last_good_vars := none } : CounterState).pending_miss) ∧
    (tickMissInsert
        { mbox_id := 7, tare := 2, lot := "LOT", treat_zero_as_error := true,
          treat_duplicate_as_error := true, error_label_zero := "no weight",
          error_label_duplicate := "no weight", counter_clean_timeout := 6,
          counter_miss_timeout := 4, miss_strategy := "last",
          miss_default := fun _ => none, miss_insert_limit := 2,
          miss_error_label := "scales error" }
        true true "2026-01-01 00:00:00" 10
        { counter_last_total := some 9, pending_pack_ts := none,
          miss_deadline_ts := some 5, pending_miss := 3,
          last_good_vars := none }).1.miss_deadline_ts = none ∧
    (tickMissInsert
        { mbox_id := 7, tare := 2, lot := "LOT", treat_zero_as_error := true,
          treat_duplicate_as_error := true, error_label_zero := "no weight",
          error_label_duplicate := "no weight", counter_clean_timeout := 6,
          counter_miss_timeout := 4, miss_strategy := "last",
          miss_default := fun _ => none, miss_insert_limit := 2,
          miss_error_label := "scales error" }
        true true "2026-01-01 00:00:00" 10
        { counter_last_total := some 9, pending_pack_ts := none,
          miss_deadline_ts := some 5, pending_miss := 3,
          last_good_vars := none }).1.pending_miss = 3 - min 3 (max 2 1) ∧
    (tickMissInsert
        { mbox_id := 7, tare := 2, lot := "LOT", treat_zero_as_error := true,
          treat_duplicate_as_error := true, error_label_zero := "no weight",
          error_label_duplicate := "no weight", counter_clean_timeout := 6,
          counter_miss_timeout := 4, miss_strategy := "last",
          miss_default := fun _ => none, miss_insert_limit := 2,
          miss_error_label := "scales error" }
        true true "2026-01-01 00:00:00" 10
        { counter_last_total := some 9, pending_pack_ts := none,
          miss_deadline_ts := some 5, pending_miss := 3,
          last_good_vars := none }).2.length = (min (3 : ℤ) (max 2 1)).toNat := by
  have h := C6_tick_miss_contract
    { mbox_id := 7, tare := 2, lot := "LOT", treat_zero_as_error := true,
      treat_duplicate_as_error := true, error_label_zero := "no weight",
      error_label_duplicate := "no weight", counter_clean_timeout := 6,
      counter_miss_timeout := 4, miss_strategy := "last",
      miss_default := fun _ => none, miss_insert_limit := 2,
      miss_error_label := "scales error" }
    true true "2026-01-01 00:00:00" 10
    { counter_last_total := some 9, pending_pack_ts := none,
      miss_deadline_ts := some 5, pending_miss := 3, last_good_vars := none }
    (by norm_num)
  have h3 := h.2.2 5 rfl (by norm_num)
  exact ⟨by norm_num, h3.1, h3.2.1, (h3.2.2.2.2 rfl rfl).1⟩

/-- **C8.** For every template that compiles and every variables map:
`build_query` fails exactly when some placeholder name has no entry in the
map, the failure message lists precisely the missing names, sorted; on
success it returns the compiled SQL together with a params map defined
exactly on the template's placeholder names (so extra variables are
ignored), agreeing with the input map there. -/
theorem C8_build_query_contract {V : Type} (template : String)
    (compiled : CompiledQueryTemplate)
    (hc : compile_query_template template = .ok compiled)
    (vs : String → Option V) :
    match build_query template vs with
    | .error e =>
        (∃ n ∈ compiled.param_names, vs n = none) ∧
        ∃ ms, e = "Missing variables for query template: " ++
            String.intercalate ", " ms ∧
          ms.Pairwise (· ≤ ·) ∧
          (∀ n, n ∈ ms ↔ n ∈ compiled.param_names ∧ vs n = none)
    | .ok p =>
        p.1 = compiled.sql ∧
        (∀ n ∈ compiled.param_names, p.2 n = vs n ∧ (vs n).isSome = true) ∧
        (∀ n, n ∉ compiled.param_names → p.2 n = none) := by
  unfold build_query
  rw [hc]
  dsimp only
  by_cases hmiss : compiled.param_names.filter (fun n => (vs n).isNone) = []
  · rw [if_pos hmiss]
    dsimp only
    refine ⟨rfl, ?_, ?_⟩
    · intro n hn
      refine ⟨if_pos hn, ?_⟩
      by_contra hns
      have hnone : (vs n).isNone = true := by
        cases hv : vs n with
        | none => rfl
        | some v => rw [hv] at hns; simp at hns
      have : n ∈ compiled.param_names.filter (fun n => (vs n).isNone) :=
        List.mem_filter.mpr ⟨hn, hnone⟩
      rw [hmiss] at this
      cases this
    · intro n hn
      exact if_neg hn
  · rw [if_neg hmiss]
    dsimp only
    constructor
    · obtain ⟨n, hn⟩ := List.exists_mem_of_ne_nil _ hmiss
      obtain ⟨hmem, hnone⟩ := List.mem_filter.mp hn
      exact ⟨n, hmem, Option.isNone_iff_eq_none.mp (by simpa using hnone)⟩
    · refine ⟨_, rfl, ?_, ?_⟩
      · have hs := @List.sorted_mergeSort String
          (fun a b : String => decide (a ≤ b))
          (fun a b c hab hbc =>
            decide_eq_true (le_trans (of_decide_eq_true hab) (of_decide_eq_true hbc)))
          (fun a b => by
            rcases le_total a b with h | h
            · simp [h]
            · simp [h])
          (compiled.param_names.filter (fun n => (vs n).isNone))
        exact hs.imp (fun h => of_decide_eq_true h)
      · intro n
        rw [List.mem_mergeSort, List.mem_filter]
        simp [Option.isNone_iff_eq_none]

/-- **C8, witness**: the template `"INSERT ({a}, {b})"` compiles to
`"INSERT (:a, :b)"` with placeholder names `a`, `b`; applied with a map
defining only `a`, the contract instance holds (the call fails listing `b`). -/
theorem C8_build_query_contract_witness :
    (compile_query_template "INSERT ({a}, {b})" =
      .ok ⟨"INSERT (:a, :b)", ["a", "b"]⟩) ∧
    (match build_query "INSERT ({a}, {b})"
        (fun n => if n = "a" then some (1 : ℤ) else none) with
     | .error e =>
        (∃ n ∈ (⟨"INSERT (:a, :b)", ["a", "b"]⟩ : CompiledQueryTemplate).param_names,
          (fun n => if n = "a" then some (1 : ℤ) else none) n = none) ∧
        ∃ ms, e = "Missing variables for query template: " ++
            String.intercalate ", " ms ∧
          ms.Pairwise (· ≤ ·) ∧
          (∀ n, n ∈ ms ↔
            n ∈ (⟨"INSERT (:a, :b)", ["a", "b"]⟩ : CompiledQueryTemplate).param_names ∧
            (fun n => if n = "a" then some (1 : ℤ) else none) n = none)
     | .ok p =>
        p.1 = (⟨"INSERT (:a, :b)", ["a", "b"]⟩ : CompiledQueryTemplate).sql ∧
        (∀ n ∈ (⟨"INSERT (:a, :b)", ["a", "b"]⟩ : CompiledQueryTemplate).param_names,
          p.2 n = (fun n => if n = "a" then some (1 : ℤ) else none) n ∧
          ((fun n => if n = "a" then some (1 : ℤ) else none) n).isSome = true) ∧
        (∀ n, n ∉ (⟨"INSERT (:a, :b)", ["a", "b"]⟩ : CompiledQueryTemplate).param_names →
          p.2 n = none)) := by
  refine ⟨rfl, ?_⟩
  exact C8_build_query_contract "INSERT ({a}, {b})" ⟨"INSERT (:a, :b)", ["a", "b"]⟩
    rfl (fun n => if n = "a" then some (1 : ℤ) else none)

/-- **C2.** The spec requires ≥ 11 comma-separated columns with every failing
input rejected by a `ValueError`, and the parser's own docstring and tests
promise `ValueError` on any malformed input; but the code checks
`len(parts) < 10` while reading `parts[10]`, so a payload with exactly 10
columns (valid datetime, valid float in column 9) escapes with an uncaught
`IndexError` instead.  For contrast: an 11-column payload parses into the
documented record, and a short payload does raise the `ValueError`. -/
theorem C2_parser_ten_columns_code_bug :
    parse_label_frame ("20240101123015999,a,b,c,d,e,f,g,h,1.0".toList.map Char.toNat) =
      .error PyErr.indexError ∧
    parse_label_frame ("20240101,ABC".toList.map Char.toNat) =
      .error (.valueError "expected at least 10 fields") ∧
    ∃ r, parse_label_frame
        ("20240101123015999,HH,F,LOT,0,0,MACKEREL,SN123,M,12.5,13.1,X".toList.map Char.toNat) =
        .ok r ∧
      r.dt = ⟨2024, 1, 1, 12, 30, 15, 999000⟩ ∧ r.sFishType = "MACKEREL" ∧
      r.sSize = "M" ∧ r.sSNumber = "SN123" ∧
      r.nWeight = 25 / 2 ∧ r.rWeight = 131 / 10 := by
  refine ⟨rfl, rfl, ?_⟩
  refine ⟨_, rfl, rfl, rfl, rfl, rfl, ?_, ?_⟩
  · norm_num [digitsToNat, show '1'.toNat - 48 = 1 from rfl,
      show '2'.toNat - 48 = 2 from rfl, show '5'.toNat - 48 = 5 from rfl]
  · norm_num [digitsToNat, show '1'.toNat - 48 = 1 from rfl,
      show '3'.toNat - 48 = 3 from rfl]
